import Mathlib

/-!
# Expense Tracker — verification of the in-memory ledger

A shallow embedding of the client-side logic of the Expense-Tracker
repository (`frontend/js/script.js`, plus the second variant of that script
shipped in the repository, referred to here with the suffix `P0`).

Modelling conventions:
* JavaScript numbers are modelled as `Option ℚ`, with `none` standing for
  `NaN`; `jsAdd`/`jsSub` propagate `NaN` exactly as IEEE addition does on
  the values this program produces.
* `parseFloat` is a model of the JavaScript builtin on the inputs this
  program feeds it: optional leading whitespace, an optional sign, then the
  longest prefix of decimal digits with at most one decimal point.
  Exponent notation and `Infinity` are not modelled.
* The `createdAt` wall-clock timestamp stamped by `addTransaction` is not
  modelled: it is never read by any of the verified operations.
* DOM writes (CSS classes, alerts, animations) are side channels with no
  effect on the data model and are dropped; each handler is embedded as the
  function from its inputs and the store state to the new store state.
-/

/-- Numeric value of a decimal digit character. -/
def digitVal (c : Char) : Nat := c.toNat - 48

/-- Value of a most-significant-first list of decimal digit characters. -/
def natOfDigits (ds : List Char) : Nat :=
  ds.foldl (fun acc c => 10 * acc + digitVal c) 0

/-- The pieces of a parsed decimal literal: sign, integer part, fraction
part, and the number of fraction digits. -/
structure NumParts where
  neg : Bool
  intPart : Nat
  fracPart : Nat
  fracLen : Nat
  deriving Repr, DecidableEq

/-- The scanning phase of the JavaScript `parseFloat` builtin (see module
conventions): leading whitespace is skipped, an optional sign is read,
then the longest prefix `digits[.digits]` is taken; `none` when there is
no digit at all (e.g. `""`, `"abc"`, `"."`), which `parseFloat` turns into
`NaN`. A numeric prefix followed by junk scans the prefix, e.g. `"12abc"`
scans as `12`. -/
def parseFloatParts (s : String) : Option NumParts :=
  let cs := s.data.dropWhile Char.isWhitespace
  let neg : Bool := cs.head? = some '-'
  let cs := if cs.head? = some '-' || cs.head? = some '+' then cs.tail else cs
  let intDs := cs.takeWhile Char.isDigit
  let rest := cs.dropWhile Char.isDigit
  let fracDs := match rest with
    | '.' :: r => r.takeWhile Char.isDigit
    | _ => []
  if intDs.isEmpty && fracDs.isEmpty then none
  else some { neg := neg, intPart := natOfDigits intDs,
              fracPart := natOfDigits fracDs, fracLen := fracDs.length }

/-- Numeric value of a scanned decimal literal. -/
def partsToRat (p : NumParts) : ℚ :=
  let mag : ℚ := (p.intPart : ℚ) + (p.fracPart : ℚ) / (10 : ℚ) ^ p.fracLen
  if p.neg then -mag else mag

/-- Model of the JavaScript `parseFloat` builtin: the value of the scanned
decimal prefix, or `none` (modelling `NaN`) when nothing numeric was
scanned. -/
def parseFloat (s : String) : Option ℚ := (parseFloatParts s).map partsToRat

/-- Model of JavaScript `String.prototype.trim`: drops whitespace from
both ends of the string (written on the character list). -/
def jsTrim (s : String) : String :=
  String.mk (((s.data.dropWhile Char.isWhitespace).reverse.dropWhile
    Char.isWhitespace).reverse)

/-- JavaScript `+` on two numbers, `NaN` (= `none`) absorbing. -/
def jsAdd : Option ℚ → Option ℚ → Option ℚ
  | some a, some b => some (a + b)
  | _, _ => none

/-- JavaScript `-` on two numbers, `NaN` (= `none`) absorbing. -/
def jsSub : Option ℚ → Option ℚ → Option ℚ
  | some a, some b => some (a - b)
  | _, _ => none

/-- JavaScript `x <= 0` on a number; false when `x` is `NaN`. -/
def jsLeZero : Option ℚ → Bool
  | none => false
  | some v => decide (v ≤ 0)

/-- A transaction record as stored in the `transactions` array
(`script.js` §B): stable id, description, amount (the `parseFloat` of the
submitted amount string), type string (`"income"` or `"expense"` by
construction of the form's select element), and date string. -/
structure Tx where
  id : Nat
  description : String
  amount : Option ℚ
  type : String
  date : String
  deriving Repr, DecidableEq

/-- The in-memory data store of `script.js` §B: the `transactions` array
together with the private auto-increment counter `_nextId`. -/
structure Store where
  transactions : List Tx
  nextId : Nat
  deriving Repr, DecidableEq

/-- The initial state: `transactions = []`, `_nextId = 1`. -/
def initialStore : Store := { transactions := [], nextId := 1 }

/-- The object returned by `readFormValues()` in `script.js`: the
description already trimmed, the amount kept as a string. -/
structure FormData where
  description : String
  amount : String
  type : String
  date : String
  deriving Repr, DecidableEq

/-- The four raw form field values as the user submitted them. -/
structure RawForm where
  description : String
  amount : String
  type : String
  date : String
  deriving Repr, DecidableEq

/-- `readFormValues()` from `script.js`: trims the description, keeps the
amount as a string for validation. -/
def readFormValues (f : RawForm) : FormData :=
  { description := (jsTrim f.description), amount := f.amount,
    type := f.type, date := f.date }

/-- `addTransaction(data)` from `script.js` §B: builds the new record with
`id = _nextId++` and `amount = parseFloat(data.amount)`, appends it to the
array, and returns it.  It performs no validation of its input. -/
def addTransaction (data : FormData) (s : Store) : Tx × Store :=
  let tx : Tx :=
    { id := s.nextId, description := data.description,
      amount := parseFloat data.amount, type := data.type, date := data.date }
  (tx, { transactions := s.transactions ++ [tx], nextId := s.nextId + 1 })

/-- `removeTransaction(id)` from `script.js` §B: replaces the array by its
filter on `tx.id !== id`.  The JavaScript function body contains no
`return` statement, so a call evaluates to `undefined`; that call result is
modelled as the first component, always `none : Option Bool`. -/
def removeTransaction (i : Nat) (s : Store) : Option Bool × Store :=
  (none,
   { transactions := s.transactions.filter (fun tx => tx.id != i),
     nextId := s.nextId })

/-- A user-level mutation of the store: a validated form submission
reaching `addTransaction`, or a delete click reaching `removeTransaction`. -/
inductive Op where
  | add : FormData → Op
  | remove : Nat → Op
  deriving Repr, DecidableEq

/-- Effect of one operation on the store. -/
def applyOp (s : Store) : Op → Store
  | Op.add d => (addTransaction d s).2
  | Op.remove i => (removeTransaction i s).2

/-- Runs a sequence of operations on the store, left to right. -/
def runOps (s : Store) : List Op → Store
  | [] => s
  | op :: rest => runOps (applyOp s op) rest

/-- The ids handed out by the adds of an operation sequence, in order of
assignment (each add assigns the `_nextId` current at that moment). -/
def assignedIds (s : Store) : List Op → List Nat
  | [] => []
  | Op.add d :: rest => s.nextId :: assignedIds (applyOp s (Op.add d)) rest
  | Op.remove i :: rest => assignedIds (applyOp s (Op.remove i)) rest

/-- The ids currently present in the store. -/
def storeIds (s : Store) : List Nat := s.transactions.map Tx.id

/-- The three values `updateSummary()` (§I of `script.js`) computes and
pushes to the summary cards. -/
structure Summary where
  totalIncome : Option ℚ
  totalExpense : Option ℚ
  netBalance : Option ℚ
  deriving Repr, DecidableEq

/-- `updateSummary()` from `script.js` §I (identically §G of the variant
script): a single forEach pass accumulating `totalIncome` over records with
`type === 'income'` and `totalExpense` over the others, then
`netBalance = totalIncome - totalExpense`. -/
def updateSummary (txs : List Tx) : Summary :=
  let p := txs.foldl
    (fun (acc : Option ℚ × Option ℚ) tx =>
      if tx.type = "income" then (jsAdd acc.1 tx.amount, acc.2)
      else (acc.1, jsAdd acc.2 tx.amount))
    (some 0, some 0)
  { totalIncome := p.1, totalExpense := p.2, netBalance := jsSub p.1 p.2 }

/-- Spec-side reading of a record's amount as a rational (meaningful for
records whose amount is an actual number, i.e. not `NaN`). -/
def amountVal (tx : Tx) : ℚ := tx.amount.getD 0

/-- Spec-side definition (§4.2 of the spec): the sum of amounts of records
whose type is `income`. -/
def specIncome (txs : List Tx) : ℚ :=
  ((txs.filter fun tx => tx.type == "income").map amountVal).sum

/-- Spec-side definition (§4.2 of the spec): the sum of amounts of records
whose type is `expense`. -/
def specExpense (txs : List Tx) : ℚ :=
  ((txs.filter fun tx => tx.type == "expense").map amountVal).sum

/-- Spec-side contribution of a single record (§8 of the spec): its amount
goes to the income or the expense component exclusively by type. -/
def contribution (x : Tx) : Option ℚ × Option ℚ :=
  if x.type = "income" then (x.amount, some 0) else (some 0, x.amount)

/-- Spec-side combine `⊕` (§8 of the spec): add a contribution pair onto a
summary componentwise and re-derive the balance. -/
def summCombine (s : Summary) (c : Option ℚ × Option ℚ) : Summary :=
  { totalIncome := jsAdd s.totalIncome c.1,
    totalExpense := jsAdd s.totalExpense c.2,
    netBalance := jsSub (jsAdd s.totalIncome c.1) (jsAdd s.totalExpense c.2) }

/-- One rendered table row of the projection: the 1-based display serial
together with the record it displays. -/
structure Row where
  serial : Nat
  tx : Tx
  deriving Repr, DecidableEq

/-- The row-building loop of `renderTable()` (§H of `script.js`,
identically §F of the variant script): spread-copy the array, reverse it
(newest first), and emit each record with display serial `index + 1`.
The empty-state placeholder appended when the list is empty is not a
transaction row and carries no record, so the projection is `[]` there. -/
def renderTable (txs : List Tx) : List Row :=
  (txs.reverse.enum).map fun p => { serial := p.1 + 1, tx := p.2 }

/-- Maximum description length, `CONFIG.maxDescLen` in `script.js`. -/
def maxDescLen : Nat := 100

/-- The description check of `validateInputs` in `script.js` §G: invalid
when empty (`!data.description || length < 1`), else invalid when longer
than `CONFIG.maxDescLen`. -/
def descValid (s : String) : Bool :=
  if s == "" || s.length < 1 then false
  else if s.length > maxDescLen then false
  else true

/-- The amount check of `validateInputs` in `script.js` §G: with
`amt = parseFloat(data.amount)`, invalid when
`data.amount === '' || isNaN(amt) || amt <= 0`. -/
def amountValid (a : String) : Bool :=
  !(a == "" || (parseFloat a).isNone || jsLeZero (parseFloat a))

/-- The date check of `validateInputs` in `script.js` §G: invalid when
`!data.date`. -/
def dateValid (d : String) : Bool := !(d == "")

/-- `validateInputs(data)` from `script.js` §G: the three independent field
checks are all evaluated and the result is true only if all pass. -/
def validateInputs (data : FormData) : Bool :=
  descValid data.description && amountValid data.amount && dateValid data.date

/-- `validateInputs(description, amount, date)` from the variant script
(§E there): `description` is the already-trimmed string, `amount` the
already-parsed number.  It checks `!description`,
`isNaN(amount) || amount <= 0`, and `!date` — it has no description length
check. -/
def validateInputsP0 (description : String) (amount : Option ℚ) (date : String) : Bool :=
  !(description == "") && !(amount.isNone || jsLeZero amount) && !(date == "")

/-- `handleFormSubmit` from `script.js` §F, restricted to its effect on the
store: read the form values, validate, and only on success call
`addTransaction`; on failure return without touching the store. -/
def handleFormSubmit (f : RawForm) (s : Store) : Store :=
  let formData := readFormValues f
  if validateInputs formData then (addTransaction formData s).2 else s

/-- `handleFormSubmit` from the variant script, restricted to its effect on
the store: trim the description, `parseFloat` the amount up front, validate
with its own `validateInputs`, and only on success push
`{ id: nextId++, description, amount, type, date }`. -/
def handleFormSubmitP0 (f : RawForm) (s : Store) : Store :=
  let description := (jsTrim f.description)
  let amount := parseFloat f.amount
  if validateInputsP0 description amount f.date then
    { transactions := s.transactions ++
        [{ id := s.nextId, description := description, amount := amount,
           type := f.type, date := f.date }],
      nextId := s.nextId + 1 }
  else s

/-- Two-digit zero-padded rendering of a number below 100 (the fraction
part produced by two fixed fraction digits). -/
def padTwo (n : Nat) : String :=
  String.mk [Char.ofNat (48 + n / 10), Char.ofNat (48 + n % 10)]

/-- Inserts a comma after every three characters of a reversed digit
list — the en-US thousands grouping, applied from the right. -/
def groupRev : List Char → List Char
  | a :: b :: c :: d :: rest => a :: b :: c :: ',' :: groupRev (d :: rest)
  | l => l

/-- en-US thousands grouping of a most-significant-first digit list. -/
def groupDigits (ds : List Char) : List Char := (groupRev ds.reverse).reverse

/-- Number of cents a nonnegative amount rounds to with two fraction
digits (round half away from zero, the Intl default for nonnegatives). -/
def roundCents (q : ℚ) : Nat := (⌊q * 100 + 1 / 2⌋).toNat

/-- Model of `abs.toLocaleString('en-US', { minimumFractionDigits: 2,
maximumFractionDigits: 2 })` for a nonnegative finite number: grouped
integer digits, a point, and exactly two fraction digits. -/
def centsToGrouped (cents : Nat) : String :=
  String.mk (groupDigits (Nat.toDigits 10 (cents / 100))) ++ "." ++ padTwo (cents % 100)

/-- `formatCurrency(value)` from `script.js` §K (identically §H of the
variant script): a leading `'-'` for negatives, then `'$'`, then the
absolute value grouped with two fraction digits. -/
def formatCurrency (q : ℚ) : String :=
  (if q < 0 then "-" else "") ++ "$" ++ centsToGrouped (roundCents |q|)

/-- Model of JavaScript `Number.prototype.toFixed(2)` for a finite number:
plain (ungrouped) digits with exactly two fraction digits. -/
def toFixedTwo (q : ℚ) : String :=
  (if q < 0 then "-" else "") ++
    String.mk (Nat.toDigits 10 (roundCents |q| / 100)) ++ "." ++ padTwo (roundCents |q| % 100)

/-- The amount cell text of `buildRow` in the variant script (§F there):
the template literal piece `$${tx.amount.toFixed(2)}` — a dollar sign
directly followed by `toFixed(2)` of the amount, with no thousands
grouping (`toFixed` on `NaN` yields the string `"NaN"`). -/
def buildRowAmountP0 (tx : Tx) : String :=
  "$" ++ (match tx.amount with
          | none => "NaN"
          | some q => toFixedTwo q)

/-- `updateCountBadge()` from `script.js` §I: `'1 record'` for exactly one
record, `'N records'` otherwise. -/
def updateCountBadge (txs : List Tx) : String :=
  if txs.length = 1 then "1 record" else toString txs.length ++ " records"

/-! ## Helper lemmas -/

/-- Adding a literal zero is the identity for JavaScript addition, also on
`NaN`. -/
lemma jsAdd_zero (x : Option ℚ) : jsAdd x (some 0) = x := by
  cases x <;> simp [jsAdd]

/-- The single aggregation pass of `updateSummary`, run from an arbitrary
pair of already-accumulated totals, adds exactly the income sum to the
first component and the expense sum to the second, provided every record
carries one of the two enumeration types and a non-`NaN` amount. -/
lemma updateSummary_fold (txs : List Tx) :
    ∀ (a b : ℚ),
      (∀ tx ∈ txs, tx.type = "income" ∨ tx.type = "expense") →
      (∀ tx ∈ txs, tx.amount ≠ none) →
      txs.foldl
        (fun (acc : Option ℚ × Option ℚ) tx =>
          if tx.type = "income" then (jsAdd acc.1 tx.amount, acc.2)
          else (acc.1, jsAdd acc.2 tx.amount))
        (some a, some b)
      = (some (a + specIncome txs), some (b + specExpense txs)) := by
  induction txs with
  | nil => intro a b _ _; simp [specIncome, specExpense]
  | cons tx rest ih =>
    intro a b htype hamt
    obtain ⟨q, hq⟩ : ∃ q, tx.amount = some q := by
      cases h : tx.amount with
      | none => exact absurd h (hamt tx (List.mem_cons_self tx rest))
      | some q => exact ⟨q, rfl⟩
    have htype' := fun t ht => htype t (List.mem_cons_of_mem tx ht)
    have hamt' := fun t ht => hamt t (List.mem_cons_of_mem tx ht)
    rcases htype tx (List.mem_cons_self tx rest) with h | h
    · simp only [List.foldl_cons, h, if_pos, hq]
      rw [show jsAdd (some a) (some q) = some (a + q) from rfl,
        ih (a + q) b htype' hamt']
      have hne : ¬ (("income" : String) == "expense") = true := by decide
      simp [specIncome, specExpense, List.filter_cons, h, hne, amountVal, hq, add_assoc]
    · have hne : tx.type = "income" → False := by
        rw [h]; intro hcon; exact absurd hcon (by decide)
      simp only [List.foldl_cons, if_neg hne, hq]
      rw [show jsAdd (some b) (some q) = some (b + q) from rfl,
        ih a (b + q) htype' hamt']
      have hne2 : ¬ (("expense" : String) == "income") = true := by decide
      simp [specIncome, specExpense, List.filter_cons, h, hne2, amountVal, hq, add_assoc]

/-- Records used in witness statements: the end-to-end scenario of §8 of
the spec (an income of 1000, then an expense of 300). -/
def demoTxs : List Tx :=
  [{ id := 1, description := "Salary", amount := some 1000,
     type := "income", date := "2026-01-01" },
   { id := 2, description := "Rent", amount := some 300,
     type := "expense", date := "2026-01-02" }]

/-! ## Claims about the aggregator -/

/-- C1: for every list of transactions (records carrying one of the two
enumeration types and a numeric amount, as every record the data model
admits does), the single-pass summary satisfies: income is the sum of
amounts of records with type income, expense is the sum of amounts of
records with type expense, and balance is income minus expense; the empty
list yields the all-zero summary. -/
theorem C1_updateSummary_correct (txs : List Tx)
    (htype : ∀ tx ∈ txs, tx.type = "income" ∨ tx.type = "expense")
    (hamt : ∀ tx ∈ txs, tx.amount ≠ none) :
    updateSummary txs =
      { totalIncome := some (specIncome txs),
        totalExpense := some (specExpense txs),
        netBalance := some (specIncome txs - specExpense txs) }
    ∧ updateSummary [] =
      { totalIncome := some 0, totalExpense := some 0, netBalance := some 0 } := by
  constructor
  · show Summary.mk _ _ _ = _
    rw [updateSummary_fold txs 0 0 htype hamt]
    simp [jsSub]
  · simp [updateSummary, jsSub]

/-- Witness for C1 at the concrete two-record scenario. -/
theorem C1_updateSummary_correct_witness :
    updateSummary demoTxs =
      { totalIncome := some (specIncome demoTxs),
        totalExpense := some (specExpense demoTxs),
        netBalance := some (specIncome demoTxs - specExpense demoTxs) }
    ∧ updateSummary [] =
      { totalIncome := some 0, totalExpense := some 0, netBalance := some 0 } :=
  C1_updateSummary_correct demoTxs (by decide) (by decide)

/-- C8: the summary is additive — aggregating a list extended by one
record equals the aggregate of the list combined with the contribution of
that record, whose amount goes to income or expense exclusively by its
type, the balance changing accordingly. -/
theorem C8_updateSummary_additive (A : List Tx) (x : Tx)
    (h : x.type = "income" ∨ x.type = "expense") :
    updateSummary (A ++ [x]) = summCombine (updateSummary A) (contribution x) := by
  rcases h with h | h
  · have hni : x.type = "income" := h
    simp [updateSummary, summCombine, contribution, List.foldl_append, hni, jsAdd_zero]
  · have hne : x.type = "income" → False := by
      rw [h]; intro hcon; exact absurd hcon (by decide)
    simp [updateSummary, summCombine, contribution, List.foldl_append, if_neg hne, jsAdd_zero]

/-- Witness for C8: appending the demo expense record to the demo list. -/
theorem C8_updateSummary_additive_witness :
    updateSummary (demoTxs ++
        [{ id := 3, description := "Coffee", amount := some 5,
           type := "expense", date := "2026-01-03" }]) =
      summCombine (updateSummary demoTxs)
        (contribution
          { id := 3, description := "Coffee", amount := some 5,
            type := "expense", date := "2026-01-03" }) :=
  C8_updateSummary_additive demoTxs
    { id := 3, description := "Coffee", amount := some 5,
      type := "expense", date := "2026-01-03" }
    (Or.inr rfl)

/-! ## Claims about the presentation projection -/

/-- The display serials produced by enumerating a list from position `n`
are the consecutive integers starting at `n + 1`. -/
lemma enumFrom_serials (l : List Tx) :
    ∀ n : Nat, (List.enumFrom n l).map (fun p => p.1 + 1) = List.range' (n + 1) l.length := by
  induction l with
  | nil => intro n; simp
  | cons tx rest ih =>
    intro n
    simp [List.range'_succ, ih (n + 1)]

/-- C6: for every store contents, the projected display ordering is the
exact reverse of insertion ordering (newest first), and the display
serials are recomputed as `1..N` on every projection — in particular they
are determined by the position alone, independent of the records' stable
ids. -/
theorem C6_renderTable_newest_first (txs : List Tx) :
    (renderTable txs).map Row.tx = txs.reverse ∧
    (renderTable txs).map Row.serial = List.range' 1 txs.length := by
  constructor
  · show (List.map _ _).map _ = _
    rw [List.map_map]
    have : (Row.tx ∘ fun p : Nat × Tx => { serial := p.1 + 1, tx := p.2 }) = Prod.snd := rfl
    rw [this, List.enum_map_snd]
  · show (List.map _ _).map _ = _
    rw [List.map_map]
    have : (Row.serial ∘ fun p : Nat × Tx => { serial := p.1 + 1, tx := p.2 })
        = fun p : Nat × Tx => p.1 + 1 := rfl
    rw [this]
    have h := enumFrom_serials txs.reverse 0
    simpa [List.enum] using h

/-! ## Concrete evaluations of the numeric scanner -/

/-- `parseFloat` on a string whose scan succeeds. -/
lemma parseFloat_of_parts (s : String) (p : NumParts)
    (h : parseFloatParts s = some p) : parseFloat s = some (partsToRat p) := by
  simp [parseFloat, h]

/-- `parseFloat` on a string whose scan finds no digits. -/
lemma parseFloat_nan (s : String) (h : parseFloatParts s = none) :
    parseFloat s = none := by
  simp [parseFloat, h]

lemma parseFloat_empty : parseFloat "" = none := parseFloat_nan "" (by decide)

lemma parseFloat_abc : parseFloat "abc" = none := parseFloat_nan "abc" (by decide)

lemma parseFloat_zero : parseFloat "0" = some 0 := by
  rw [parseFloat_of_parts "0"
    { neg := false, intPart := 0, fracPart := 0, fracLen := 0 } (by decide)]
  norm_num [partsToRat]

lemma parseFloat_five : parseFloat "5" = some 5 := by
  rw [parseFloat_of_parts "5"
    { neg := false, intPart := 5, fracPart := 0, fracLen := 0 } (by decide)]
  norm_num [partsToRat]

lemma parseFloat_neg_five : parseFloat "-5" = some (-5) := by
  rw [parseFloat_of_parts "-5"
    { neg := true, intPart := 5, fracPart := 0, fracLen := 0 } (by decide)]
  norm_num [partsToRat]

lemma parseFloat_cent : parseFloat "0.01" = some (1 / 100) := by
  rw [parseFloat_of_parts "0.01"
    { neg := false, intPart := 0, fracPart := 1, fracLen := 2 } (by decide)]
  norm_num [partsToRat]

lemma parseFloat_twelve_junk : parseFloat "12abc" = some 12 := by
  rw [parseFloat_of_parts "12abc"
    { neg := false, intPart := 12, fracPart := 0, fracLen := 0 } (by decide)]
  norm_num [partsToRat]

/-! ## Claims about the validator -/

/-- A 101-character description, used to exhibit the missing length cap in
the variant script's validator. -/
def longDesc : String := String.mk (List.replicate 101 'a')

/-- `amountValid` on the concrete strings named by the claim. -/
lemma amountValid_zero : amountValid "0" = false := by
  unfold amountValid
  rw [parseFloat_zero]
  simp [jsLeZero]

lemma amountValid_neg_five : amountValid "-5" = false := by
  unfold amountValid
  rw [parseFloat_neg_five]
  simp [jsLeZero]

lemma amountValid_cent : amountValid "0.01" = true := by
  unfold amountValid
  rw [parseFloat_cent]
  simp [jsLeZero]

/-- C3 counterexample: in the variant script, a 101-character description
with a valid amount and date passes validation (`validateInputsP0` has no
length check), and the submission therefore adds a record — contradicting
the claim that a description longer than 100 characters always fails
validation. -/
theorem C3_counterexample_P0_accepts_101 :
    longDesc.length = 101 ∧
    validateInputsP0 longDesc (parseFloat "5") "2026-01-01" = true ∧
    (handleFormSubmitP0
        { description := longDesc, amount := "5",
          type := "income", date := "2026-01-01" }
        initialStore).transactions.length = 1 := by
  have hval : validateInputsP0 longDesc (some 5) "2026-01-01" = true := by decide
  have htrim : jsTrim longDesc = longDesc := by decide
  refine ⟨by decide, by rw [parseFloat_five]; exact hval, ?_⟩
  show (handleFormSubmitP0 _ _).transactions.length = 1
  unfold handleFormSubmitP0
  simp only [htrim, parseFloat_five, hval, if_true]
  simp [initialStore]

/-- C3 (amended): the `script.js` validator applies exactly the claimed
per-field rules — description fails iff empty after trimming or longer
than 100 characters, amount fails iff not parseable as a number or parsed
value ≤ 0, date fails iff empty, and the overall result is valid iff every
field passes ("0" and "-5" fail, "0.01" passes, a 100-character
description passes, a 101-character one fails); the variant script's
validator applies the same amount and date rules but has no description
length cap: it accepts any nonempty description. -/
theorem C3_validation_rules (f : RawForm) (amt : Option ℚ) :
    (descValid (readFormValues f).description = false ↔
       (jsTrim f.description = "" ∨ (jsTrim f.description).length > 100)) ∧
    (amountValid f.amount = false ↔
       (parseFloat f.amount = none ∨ ∃ v, parseFloat f.amount = some v ∧ v ≤ 0)) ∧
    (dateValid f.date = false ↔ f.date = "") ∧
    (validateInputs (readFormValues f) = true ↔
       (descValid (jsTrim f.description) = true ∧ amountValid f.amount = true ∧
        dateValid f.date = true)) ∧
    (validateInputsP0 (jsTrim f.description) amt f.date = true ↔
       (jsTrim f.description ≠ "" ∧ (∃ v, amt = some v ∧ 0 < v) ∧ f.date ≠ "")) ∧
    descValid (String.mk (List.replicate 100 'a')) = true ∧
    descValid longDesc = false ∧
    amountValid "0" = false ∧ amountValid "-5" = false ∧ amountValid "0.01" = true ∧
    dateValid "" = false := by
  refine ⟨?_, ?_, ?_, ?_, ?_, by decide, by decide,
    amountValid_zero, amountValid_neg_five, amountValid_cent, by decide⟩
  · show descValid (jsTrim f.description) = false ↔ _
    unfold descValid maxDescLen
    by_cases h : jsTrim f.description = ""
    · simp [h]
    · have hb : (jsTrim f.description == "") = false := by
        simpa using h
      have h2 : ¬ (jsTrim f.description).length < 1 := by
        intro hlt
        apply h
        have h0 : (jsTrim f.description).length = 0 := by omega
        cases hs : jsTrim f.description with
        | mk l =>
          cases l with
          | nil => rfl
          | cons a t => rw [hs] at h0; simp [String.length] at h0
      simp only [hb, Bool.false_or, if_neg h2]
      by_cases h3 : (jsTrim f.description).length > 100
      · simp [h3, h, h2]
      · simp [h3, h, h2]
  · unfold amountValid
    cases hp : parseFloat f.amount with
    | none => simp [hp]
    | some v =>
      have hne : (f.amount == "") = false := by
        simp only [beq_eq_false_iff_ne, ne_eq]
        intro he
        rw [he, parseFloat_empty] at hp
        cases hp
      simp [hp, hne, jsLeZero]
  · unfold dateValid
    by_cases h : f.date = "" <;> simp [h]
  · unfold validateInputs readFormValues
    simp [Bool.and_eq_true, and_assoc]
  · unfold validateInputsP0
    cases amt with
    | none => simp
    | some v =>
      by_cases hd : jsTrim f.description = "" <;>
        by_cases hdt : f.date = "" <;>
          simp [hd, hdt, jsLeZero, Bool.and_eq_true, not_le]

/-! ## Claims about removal and submission -/

/-- A valid concrete submission used in several witnesses. -/
def sampleForm : FormData :=
  { description := "Lunch", amount := "12.5", type := "expense", date := "2026-01-01" }

/-- The store holding exactly the record created from `sampleForm`
(id 1). -/
def sampleStore : Store := (addTransaction sampleForm initialStore).2

/-- C4 counterexample: removing id 1 from a store that contains it does
perform a removal (the size drops by one), yet the call's result is
`undefined` (modelled `none`), not a boolean indicating that a removal
occurred — the function body has no `return` statement. -/
theorem C4_counterexample_no_boolean :
    1 ∈ storeIds sampleStore ∧
    (removeTransaction 1 sampleStore).2.transactions.length + 1
        = sampleStore.transactions.length ∧
    (removeTransaction 1 sampleStore).1 = none ∧
    ∀ b : Bool, (removeTransaction 1 sampleStore).1 ≠ some b := by
  refine ⟨by decide, by decide, rfl, ?_⟩
  intro b h
  cases h

/-- C4 (amended): `removeTransaction(id)` removes the records with
matching id if present, and removing a non-existent id is a no-op — not an
error — leaving the store's size and contents (and counter) unchanged; the
call however returns `undefined` rather than a boolean indicating whether
a removal occurred. -/
theorem C4_remove_semantics (s : Store) (i : Nat) :
    (removeTransaction i s).2.transactions
        = s.transactions.filter (fun tx => tx.id != i) ∧
    (removeTransaction i s).1 = none ∧
    (i ∉ storeIds s → (removeTransaction i s).2 = s) := by
  refine ⟨rfl, rfl, fun h => ?_⟩
  have hfix : s.transactions.filter (fun tx => tx.id != i) = s.transactions := by
    apply List.filter_eq_self.mpr
    intro tx htx
    simp only [bne_iff_ne, ne_eq]
    intro he
    exact h (he ▸ List.mem_map_of_mem Tx.id htx)
  show Store.mk _ _ = s
  rw [hfix]

/-- Witness for C4 (amended) at a store that does not contain id 5. -/
theorem C4_remove_semantics_witness :
    (removeTransaction 5 sampleStore).2 = sampleStore :=
  (C4_remove_semantics sampleStore 5).2.2 (by decide)

/-- C5: when validation fails, the submission handler of either script
variant aborts entirely: the store — its transaction list and its id
counter — is left exactly as it was (no partial add). -/
theorem C5_invalid_submission_aborts (f : RawForm) (s : Store) :
    (validateInputs (readFormValues f) = false → handleFormSubmit f s = s) ∧
    (validateInputsP0 (jsTrim f.description) (parseFloat f.amount) f.date = false →
      handleFormSubmitP0 f s = s) := by
  constructor
  · intro h
    unfold handleFormSubmit
    simp [h]
  · intro h
    unfold handleFormSubmitP0
    simp [h]

/-- A submission with every field invalid (all empty). -/
def badForm : RawForm :=
  { description := "", amount := "", type := "income", date := "" }

/-- Witness for C5: the all-empty submission leaves the initial store
untouched in both variants. -/
theorem C5_invalid_submission_aborts_witness :
    handleFormSubmit badForm initialStore = initialStore ∧
    handleFormSubmitP0 badForm initialStore = initialStore := by
  have hv : validateInputs (readFormValues badForm) = false := by
    unfold validateInputs readFormValues badForm
    have : amountValid "" = false := by
      unfold amountValid
      rw [parseFloat_empty]
      simp
    simp [this]
  have hv0 : validateInputsP0 (jsTrim badForm.description)
      (parseFloat badForm.amount) badForm.date = false := by
    show validateInputsP0 (jsTrim "") (parseFloat "") "" = false
    rw [parseFloat_empty]
    decide
  exact ⟨(C5_invalid_submission_aborts badForm initialStore).1 hv,
         (C5_invalid_submission_aborts badForm initialStore).2 hv0⟩

/-! ## Claims about currency formatting -/

/-- The two fixed fraction digits always have length 2. -/
lemma padTwo_length (n : Nat) : (padTwo n).length = 2 := rfl

lemma roundCents_1234_5 : roundCents (1234.5 : ℚ) = 123450 := by
  unfold roundCents
  have h : ⌊(1234.5 : ℚ) * 100 + 1 / 2⌋ = (123450 : ℤ) := by
    rw [Int.floor_eq_iff]
    norm_num
  rw [h]
  rfl

lemma roundCents_250 : roundCents (250 : ℚ) = 25000 := by
  unfold roundCents
  have h : ⌊(250 : ℚ) * 100 + 1 / 2⌋ = (25000 : ℤ) := by
    rw [Int.floor_eq_iff]
    norm_num
  rw [h]
  rfl

lemma roundCents_zero : roundCents (0 : ℚ) = 0 := by
  unfold roundCents
  have h : ⌊(0 : ℚ) * 100 + 1 / 2⌋ = (0 : ℤ) := by
    rw [Int.floor_eq_iff]
    norm_num
  rw [h]
  rfl

lemma formatCurrency_1234_5 : formatCurrency (1234.5 : ℚ) = "$1,234.50" := by
  unfold formatCurrency
  rw [abs_of_nonneg (by norm_num : (0 : ℚ) ≤ 1234.5), roundCents_1234_5,
    if_neg (by norm_num : ¬ (1234.5 : ℚ) < 0)]
  decide

lemma formatCurrency_neg_250 : formatCurrency (-250 : ℚ) = "-$250.00" := by
  unfold formatCurrency
  rw [abs_of_nonpos (by norm_num : (-250 : ℚ) ≤ 0)]
  rw [show -(-250 : ℚ) = 250 by norm_num, roundCents_250,
    if_pos (by norm_num : (-250 : ℚ) < 0)]
  decide

lemma formatCurrency_zero : formatCurrency (0 : ℚ) = "$0.00" := by
  unfold formatCurrency
  rw [abs_zero, roundCents_zero, if_neg (by norm_num : ¬ (0 : ℚ) < 0)]
  decide

/-- The big-amount record of the C9 counterexample, as the variant script
would store it from the amount string `"1234.5"`. -/
def bigTx : Tx :=
  { id := 1, description := "Rent", amount := parseFloat "1234.5",
    type := "expense", date := "2026-01-01" }

lemma parseFloat_1234_5 : parseFloat "1234.5" = some (1234.5 : ℚ) := by
  rw [parseFloat_of_parts "1234.5"
    { neg := false, intPart := 1234, fracPart := 5, fracLen := 1 } (by decide)]
  norm_num [partsToRat]

/-- The amount cell the variant script renders for `bigTx`. -/
lemma buildRowAmountP0_bigTx : buildRowAmountP0 bigTx = "$1234.50" := by
  unfold buildRowAmountP0 bigTx
  rw [parseFloat_1234_5]
  show "$" ++ toFixedTwo (1234.5 : ℚ) = "$1234.50"
  unfold toFixedTwo
  rw [abs_of_nonneg (by norm_num : (0 : ℚ) ≤ 1234.5), roundCents_1234_5,
    if_neg (by norm_num : ¬ (1234.5 : ℚ) < 0)]
  decide

/-- C9 counterexample: the variant script's table rows render the amount
1234.5 as `"$1234.50"` — two decimal places, but no thousands separator —
while the claim requires every displayed currency value to read
`"$1,234.50"`. -/
theorem C9_counterexample_row_ungrouped :
    buildRowAmountP0 bigTx = "$1234.50" ∧ buildRowAmountP0 bigTx ≠ "$1,234.50" := by
  refine ⟨buildRowAmountP0_bigTx, ?_⟩
  rw [buildRowAmountP0_bigTx]
  decide

/-- C9 (amended): every currency value formatted through `formatCurrency`
(the summary cards of both script variants, and the table rows of
`script.js`) carries exactly two decimal places, thousands separators, and
a leading minus sign for negatives, zero formatting as non-negative:
1234.5 gives `"$1,234.50"`, −250 gives `"-$250.00"`, 0 gives `"$0.00"`;
the table rows of the variant script, however, are rendered with
`toFixed(2)` and carry no thousands separator: there 1234.5 is displayed
as `"$1234.50"`. -/
theorem C9_currency_formatting (q : ℚ) :
    formatCurrency (1234.5 : ℚ) = "$1,234.50" ∧
    formatCurrency (-250 : ℚ) = "-$250.00" ∧
    formatCurrency (0 : ℚ) = "$0.00" ∧
    (q < 0 → ∃ r, formatCurrency q = "-$" ++ r) ∧
    (0 ≤ q → ∃ r, formatCurrency q = "$" ++ r) ∧
    (∃ a b, formatCurrency q = a ++ "." ++ b ∧ b.length = 2) ∧
    buildRowAmountP0 bigTx = "$1234.50" := by
  refine ⟨formatCurrency_1234_5, formatCurrency_neg_250, formatCurrency_zero,
    ?_, ?_, ?_, buildRowAmountP0_bigTx⟩
  · intro h
    refine ⟨centsToGrouped (roundCents |q|), ?_⟩
    unfold formatCurrency
    rw [if_pos h]
    rfl
  · intro h
    refine ⟨centsToGrouped (roundCents |q|), ?_⟩
    unfold formatCurrency
    rw [if_neg (not_lt.mpr h)]
    rfl
  · refine ⟨(if q < 0 then "-" else "") ++ "$" ++
        String.mk (groupDigits (Nat.toDigits 10 (roundCents |q| / 100))),
      padTwo (roundCents |q| % 100), ?_, padTwo_length _⟩
    unfold formatCurrency centsToGrouped
    simp [String.append_assoc]

/-- Witness for C9 discharging its sign hypotheses at −1 and 1. -/
theorem C9_currency_formatting_witness :
    (∃ r, formatCurrency (-1 : ℚ) = "-$" ++ r) ∧
    (∃ r, formatCurrency (1 : ℚ) = "$" ++ r) :=
  ⟨((C9_currency_formatting (-1)).2.2.2.1) (by norm_num),
   ((C9_currency_formatting 1).2.2.2.2.1) (by norm_num)⟩

/-! ## The store's add performs no validation -/

/-- C10: `addTransaction` itself validates nothing — for every input
object, validated or not, it appends exactly one record whose amount is
the `parseFloat` of the given amount string; a string with a parseable
numeric prefix such as `"12abc"` stores that prefix's value, and a wholly
non-numeric string stores `NaN`. -/
theorem C10_addTransaction_unconditional (d : FormData) (s : Store) :
    (addTransaction d s).2.transactions =
      s.transactions ++
        [{ id := s.nextId, description := d.description,
           amount := parseFloat d.amount, type := d.type, date := d.date }] ∧
    (addTransaction d s).1.amount = parseFloat d.amount ∧
    (addTransaction d s).2.nextId = s.nextId + 1 ∧
    parseFloat "12abc" = some 12 ∧
    parseFloat "abc" = none ∧
    (addTransaction
        { description := "junk", amount := "abc", type := "income", date := "d" }
        s).1.amount = none := by
  refine ⟨rfl, rfl, rfl, parseFloat_twelve_junk, parseFloat_abc, ?_⟩
  show parseFloat "abc" = none
  exact parseFloat_abc

/-! ## Id assignment: uniqueness and monotonicity -/

/-- All ids in the store are below the counter. -/
def IdsBounded (s : Store) : Prop := ∀ tx ∈ s.transactions, tx.id < s.nextId

/-- One operation never decreases the counter. -/
lemma nextId_applyOp (s : Store) (op : Op) : s.nextId ≤ (applyOp s op).nextId := by
  cases op with
  | add d => exact Nat.le_succ _
  | remove i => exact Nat.le_refl _

/-- A run of operations never decreases the counter. -/
lemma nextId_runOps (ops : List Op) : ∀ s : Store, s.nextId ≤ (runOps s ops).nextId := by
  induction ops with
  | nil => intro s; exact Nat.le_refl _
  | cons op rest ih =>
    intro s
    exact Nat.le_trans (nextId_applyOp s op) (ih (applyOp s op))

/-- The counter bound on ids is preserved by every operation. -/
lemma idsBounded_applyOp {s : Store} (h : IdsBounded s) (op : Op) :
    IdsBounded (applyOp s op) := by
  cases op with
  | add d =>
    intro tx htx
    rcases List.mem_append.mp htx with htx | htx
    · exact Nat.lt_succ_of_lt (h tx htx)
    · rcases List.mem_singleton.mp htx with rfl
      exact Nat.lt_succ_self _
  | remove i =>
    intro tx htx
    exact h tx (List.mem_of_mem_filter htx)

/-- The counter bound on ids is preserved by every run. -/
lemma idsBounded_runOps {s : Store} (h : IdsBounded s) (ops : List Op) :
    IdsBounded (runOps s ops) := by
  induction ops generalizing s with
  | nil => exact h
  | cons op rest ih => exact ih (idsBounded_applyOp h op)

/-- The ids in the store after one operation, spelled out. -/
lemma storeIds_applyOp_add (s : Store) (d : FormData) :
    storeIds (applyOp s (Op.add d)) = storeIds s ++ [s.nextId] := by
  simp [storeIds, applyOp, addTransaction]

/-- Distinctness of the stored ids is preserved by every operation, given
the counter bound. -/
lemma nodup_applyOp {s : Store} (hb : IdsBounded s) (hn : (storeIds s).Nodup)
    (op : Op) : (storeIds (applyOp s op)).Nodup := by
  cases op with
  | add d =>
    rw [storeIds_applyOp_add]
    refine List.Nodup.append hn (List.nodup_singleton _) ?_
    intro j hj hj'
    rcases List.mem_singleton.mp hj' with rfl
    rcases List.mem_map.mp hj with ⟨tx, htx, hid⟩
    exact absurd hid (Nat.ne_of_lt (hb tx htx))
  | remove i =>
    have hsub : (storeIds (applyOp s (Op.remove i))).Sublist (storeIds s) :=
      List.Sublist.map Tx.id (List.filter_sublist s.transactions)
    exact hn.sublist hsub

/-- Distinctness of the stored ids is preserved by every run. -/
lemma nodup_runOps {s : Store} (hb : IdsBounded s) (hn : (storeIds s).Nodup)
    (ops : List Op) : (storeIds (runOps s ops)).Nodup := by
  induction ops generalizing s with
  | nil => exact hn
  | cons op rest ih => exact ih (idsBounded_applyOp hb op) (nodup_applyOp hb hn op)

/-- Every id assigned during a run is at least the counter at its start. -/
lemma assigned_ge (ops : List Op) :
    ∀ (s : Store), ∀ j ∈ assignedIds s ops, s.nextId ≤ j := by
  induction ops with
  | nil => intro s j hj; cases hj
  | cons op rest ih =>
    intro s j hj
    cases op with
    | add d =>
      rcases List.mem_cons.mp hj with rfl | hj
      · exact Nat.le_refl _
      · exact Nat.le_trans (nextId_applyOp s (Op.add d)) (ih _ j hj)
    | remove i =>
      exact Nat.le_trans (nextId_applyOp s (Op.remove i)) (ih _ j hj)

/-- Every id assigned during a run is below the counter at its end. -/
lemma assigned_lt_final (ops : List Op) :
    ∀ (s : Store), ∀ j ∈ assignedIds s ops, j < (runOps s ops).nextId := by
  induction ops with
  | nil => intro s j hj; cases hj
  | cons op rest ih =>
    intro s j hj
    cases op with
    | add d =>
      rcases List.mem_cons.mp hj with rfl | hj
      · have h2 : (applyOp s (Op.add d)).nextId = s.nextId + 1 := rfl
        have h3 := nextId_runOps rest (applyOp s (Op.add d))
        show s.nextId < (runOps (applyOp s (Op.add d)) rest).nextId
        omega
      · exact ih _ j hj
    | remove i => exact ih _ j hj

/-- The assigned ids of a run are strictly increasing in order of
assignment: every add hands out an id strictly greater than all earlier
ones, so no id — deleted or not — is ever assigned twice. -/
lemma assigned_sorted (ops : List Op) :
    ∀ s : Store, List.Sorted (· < ·) (assignedIds s ops) := by
  induction ops with
  | nil => intro s; exact List.sorted_nil
  | cons op rest ih =>
    intro s
    cases op with
    | add d =>
      refine List.sorted_cons.mpr ⟨?_, ih _⟩
      intro b hb
      have h1 := assigned_ge rest (applyOp s (Op.add d)) b hb
      have h2 : (applyOp s (Op.add d)).nextId = s.nextId + 1 := rfl
      omega
    | remove i => exact ih _

/-- Any id present after a run was either present before it or assigned
during it (hence at least the starting counter). -/
lemma mem_storeIds_runOps (ops : List Op) :
    ∀ (s : Store) (j : Nat), j ∈ storeIds (runOps s ops) →
      j ∈ storeIds s ∨ s.nextId ≤ j := by
  induction ops with
  | nil => intro s j h; exact Or.inl h
  | cons op rest ih =>
    intro s j h
    rcases ih (applyOp s op) j h with h' | h'
    · cases op with
      | add d =>
        rw [storeIds_applyOp_add] at h'
        rcases List.mem_append.mp h' with h2 | h2
        · exact Or.inl h2
        · rcases List.mem_singleton.mp h2 with rfl
          exact Or.inr (Nat.le_refl _)
      | remove i =>
        left
        rcases List.mem_map.mp h' with ⟨tx, htx, rfl⟩
        exact List.mem_map_of_mem Tx.id (List.mem_of_mem_filter htx)
    · exact Or.inr (Nat.le_trans (nextId_applyOp s op) h')

/-- Removing an id present in a duplicate-free list shortens it by exactly
one. -/
lemma filter_ne_length {l : List Tx} {i : Nat}
    (hn : (l.map Tx.id).Nodup) (hi : i ∈ l.map Tx.id) :
    (l.filter (fun tx => tx.id != i)).length + 1 = l.length := by
  induction l with
  | nil => cases hi
  | cons tx rest ih =>
    rw [List.map_cons, List.nodup_cons] at hn
    by_cases h : tx.id = i
    · have hnotin : i ∉ rest.map Tx.id := h ▸ hn.1
      have hrest : rest.filter (fun tx => tx.id != i) = rest := by
        apply List.filter_eq_self.mpr
        intro x hx
        simp only [bne_iff_ne, ne_eq]
        intro he
        exact hnotin (he ▸ List.mem_map_of_mem Tx.id hx)
      have hdrop : (tx.id != i) = false := by simp [h]
      simp [List.filter_cons, hdrop, hrest]
    · have hi' : i ∈ rest.map Tx.id := by
        rcases List.mem_cons.mp (List.map_cons Tx.id tx rest ▸ hi) with h' | h'
        · exact absurd h'.symm h
        · exact h'
      have hkeep : (tx.id != i) = true := by simp [h]
      have hlen := ih hn.2 hi'
      simp only [List.filter_cons, hkeep, if_true, List.length_cons]
      omega

/-! ## Claims about id assignment and removal -/

/-- C2: across the lifetime of the store (every operation sequence from
the initial state), an add increases the size by exactly one and assigns
an id strictly greater than every previously assigned id; the ids handed
out are strictly increasing — never reused, even after deletion — and no
two records in the store ever share an id. -/
theorem C2_ids_unique_monotone (ops : List Op) (d : FormData) :
    (addTransaction d (runOps initialStore ops)).2.transactions.length
        = (runOps initialStore ops).transactions.length + 1 ∧
    (∀ j ∈ assignedIds initialStore ops,
        j < (addTransaction d (runOps initialStore ops)).1.id) ∧
    List.Sorted (· < ·) (assignedIds initialStore ops) ∧
    (storeIds (runOps initialStore ops)).Nodup := by
  refine ⟨by simp [addTransaction], ?_, assigned_sorted ops initialStore, ?_⟩
  · intro j hj
    exact assigned_lt_final ops initialStore j hj
  · exact nodup_runOps (fun tx htx => by cases htx)
      (show (storeIds initialStore).Nodup from List.nodup_nil) ops

/-- Witness for C2's inner bound at a concrete one-add history. -/
theorem C2_ids_unique_monotone_witness :
    1 < (addTransaction sampleForm
          (runOps initialStore [Op.add sampleForm])).1.id :=
  (C2_ids_unique_monotone [Op.add sampleForm] sampleForm).2.1 1 (by decide)

/-- C7: for every reachable store state and every id present in it,
removal decreases the size by exactly one, and after the removal that id
never reappears in the list under any further operation sequence. -/
theorem C7_removed_id_never_returns (ops : List Op) (i : Nat)
    (h : i ∈ storeIds (runOps initialStore ops)) :
    (removeTransaction i (runOps initialStore ops)).2.transactions.length + 1
        = (runOps initialStore ops).transactions.length ∧
    ∀ ops2 : List Op,
      i ∉ storeIds (runOps (removeTransaction i (runOps initialStore ops)).2 ops2) := by
  have hb : IdsBounded (runOps initialStore ops) :=
    idsBounded_runOps (fun tx htx => by cases htx) ops
  have hn : (storeIds (runOps initialStore ops)).Nodup :=
    nodup_runOps (fun tx htx => by cases htx)
      (show (storeIds initialStore).Nodup from List.nodup_nil) ops
  constructor
  · exact filter_ne_length hn h
  · intro ops2 hmem
    rcases mem_storeIds_runOps ops2 _ i hmem with h1 | h1
    · rcases List.mem_map.mp h1 with ⟨tx, htx, rfl⟩
      have := List.of_mem_filter htx
      simp [bne_iff_ne] at this
    · have h2 : i < (runOps initialStore ops).nextId := by
        rcases List.mem_map.mp h with ⟨tx, htx, rfl⟩
        exact hb tx htx
      have h3 : (removeTransaction i (runOps initialStore ops)).2.nextId
          = (runOps initialStore ops).nextId := rfl
      omega

/-- Witness for C7: deleting the single record of a one-add history. -/
theorem C7_removed_id_never_returns_witness :
    (removeTransaction 1 (runOps initialStore [Op.add sampleForm])).2.transactions.length + 1
        = (runOps initialStore [Op.add sampleForm]).transactions.length ∧
    ∀ ops2 : List Op,
      1 ∉ storeIds (runOps
        (removeTransaction 1 (runOps initialStore [Op.add sampleForm])).2 ops2) :=
  C7_removed_id_never_returns [Op.add sampleForm] 1 (by decide)
